import Mathlib

/-!
Verification development for the AptosAI repository.

The TypeScript sources are shallowly embedded: network interactions
(chain RPC, completion API) are modelled as explicit environment
functions whose results stand for the awaited responses of successful
calls, JavaScript BigInt values are modelled as Lean integers, and the
sequences of outbound calls made by the stateful agent methods are
made explicit as traces.
-/

/-- Prefix test on character lists (helper for substring containment). -/
def isPrefixL : List Char → List Char → Bool
  | [], _ => true
  | _ :: _, [] => false
  | a :: as, b :: bs => a == b && isPrefixL as bs

/-- Substring containment on character lists. -/
def containsL (hay needle : List Char) : Bool :=
  match hay with
  | [] => isPrefixL needle []
  | _ :: rest => isPrefixL needle hay || containsL rest needle

/-- Models the JavaScript String.prototype.includes substring test. -/
def strIncludes (s sub : String) : Bool := containsL s.data sub.data

/-- Value of a decimal digit string (helper for bigIntOfString). -/
def natOfDigits (l : List Char) : Nat :=
  l.foldl (fun n c => n * 10 + (c.toNat - 48)) 0

/-- Models the JavaScript BigInt constructor on integer numeral
strings: an optional leading minus sign followed by decimal digits. -/
def bigIntOfString (s : String) : Int :=
  match s.data with
  | '-' :: rest => - (natOfDigits rest : Int)
  | l => (natOfDigits l : Int)

/-- Models the ASCII lowering performed by the JavaScript
String.prototype.toLowerCase call on the keyword lists in use. -/
def lowerStr (s : String) : String := ⟨s.data.map Char.toLower⟩

/-- Splits the longest leading run of decimal digits off a character
list (helper for parseFloatPrefixOpt). -/
def takeDigits : List Char → List Char × List Char
  | [] => ([], [])
  | c :: rest =>
    if c.isDigit then
      let p := takeDigits rest
      (c :: p.1, p.2)
    else ([], c :: rest)

/-- Models the JavaScript parseFloat call on the strings this code
feeds it (an optional sign, digits, an optional fraction, then
arbitrary trailing text such as a percent sign): the parsed prefix is
returned as an exact rational, and none stands for NaN when no digits
are present. -/
def parseFloatPrefixOpt (s : String) : Option Rat :=
  let p := match s.data with
    | '-' :: rest => (true, rest)
    | l => (false, l)
  let ip := takeDigits p.2
  let fp := match ip.2 with
    | '.' :: r => (takeDigits r).1
    | _ => []
  if ip.1 = [] ∧ fp = [] then none
  else
    let mag : Rat := (natOfDigits ip.1 : Rat) + (natOfDigits fp : Rat) / ((10 : Rat) ^ fp.length)
    some (if p.1 then -mag else mag)

/-- The coin field of an on-chain resource payload (data.coin.value in
the JSON shape read by getAccountBalance). -/
structure CoinStore where
  value : String
deriving DecidableEq, Repr

/-- The payload of an on-chain resource; the two optional fields model
the presence or absence of the JSON members this code reads. -/
structure ResourceData where
  coin : Option CoinStore
  value : Option String
deriving DecidableEq, Repr

/-- An on-chain account resource as consumed by this code: a type tag
string plus a structured payload. -/
structure Resource where
  type : String
  data : Option ResourceData
deriving DecidableEq, Repr

/-- Models AptosAI.getAccountResources: a pure pass-through of the
chain client response, with the chain modelled as a function from
address to the fetched resource list. -/
def getAccountResources (chain : String → List Resource) (address : String) : List Resource :=
  chain address

/-- Models AptosAI.getAccountBalance: fetch the resources of the
address, find the first resource whose type exactly equals the
requested coin type, and return its data.coin.value; any absence along
that path, or a falsy empty value string, yields the string 0. -/
def getAccountBalance (chain : String → List Resource) (address coinType : String) : String :=
  match (getAccountResources chain address).find? (fun r => r.type == coinType) with
  | none => "0"
  | some r =>
    match r.data with
    | none => "0"
    | some d =>
      match d.coin with
      | none => "0"
      | some c => if c.value = "" then "0" else c.value

/-- A swap quote as typed in the agent sources: output amount and
price impact, both decimal strings. -/
structure SwapQuote where
  outputAmount : String
  priceImpact : String
deriving DecidableEq, Repr

/-- The BigInt value of a quote's output amount, as compared by the
reduce step of suggestOptimalSwap. -/
def quoteVal (q : SwapQuote) : Int := bigIntOfString q.outputAmount

/-- One step of the reduce in suggestOptimalSwap: keep the current
quote only when its output amount is strictly greater than the best so
far. -/
def betterQuote (best current : SwapQuote) : SwapQuote :=
  if quoteVal current > quoteVal best then current else best

/-- Models the initial-value-free JavaScript reduce over the quote
list in suggestOptimalSwap: the head seeds the accumulator and the
tail is folded left to right; the empty list, on which reduce throws,
yields none. -/
def selectBestQuote : List SwapQuote → Option SwapQuote
  | [] => none
  | q :: rest => some (rest.foldl betterQuote q)

/-- The DeFi position predicate of analyzePortfolio: the resource type
string contains at least one of the three fixed markers. -/
def isDefiPosition (r : Resource) : Bool :=
  strIncludes r.type "LiquidityPool" || strIncludes r.type "Stake" || strIncludes r.type "Farm"

/-- The resource filter of analyzePortfolio. -/
def filterDefiPositions (resources : List Resource) : List Resource :=
  resources.filter isDefiPosition

/-- The guarded field access of the total-value loop in
analyzePortfolio: the value member of the data member, when both are
present. -/
def positionValue (p : Resource) : Option String :=
  match p.data with
  | none => none
  | some d => d.value

/-- Models the total-value accumulation loop of analyzePortfolio:
starting from BigInt zero, each filtered position with a present
data.value field adds its BigInt value; positions lacking the field
are skipped. -/
def totalValue (positions : List Resource) : Int :=
  positions.foldl
    (fun acc p =>
      match positionValue p with
      | some v => acc + bigIntOfString v
      | none => acc)
    0

/-- The parameter object passed to plugin actions; the fields are the
ones the repository's call sites populate and the plugin reads. -/
structure ActionParams where
  poolAddress : String
  amount : String
  dex : String
  fromToken : String
  toToken : String
deriving DecidableEq, Repr

/-- The possible results of the example liquidity-pool plugin: a
resource list from getPoolInfo, or the stub swap estimate from
calculateSwap. -/
inductive PluginOutcome where
  | resources (rs : List Resource)
  | swapEstimate (estimatedOutput priceImpact : String)
deriving DecidableEq, Repr

/-- Models LiquidityPoolPlugin.getPoolInfo: fetch the resources of the
pool address and keep those whose type mentions LiquidityPool. -/
def getPoolInfo (chain : String → List Resource) (poolAddress : String) : List Resource :=
  (chain poolAddress).filter (fun r => strIncludes r.type "LiquidityPool")

/-- Models LiquidityPoolPlugin.execute: a switch on the action string
routing to getPoolInfo or calculateSwap (a stub echoing the amount
with a fixed 0.1 percent price impact), and an unknown-action error on
any other action. -/
def liquidityPoolExecute (chain : String → List Resource) (action : String) (params : ActionParams) : Except String PluginOutcome :=
  if action = "getPoolInfo" then
    .ok (.resources (getPoolInfo chain params.poolAddress))
  else if action = "calculateSwap" then
    .ok (.swapEstimate params.amount "0.1%")
  else
    .error ("Unknown action: " ++ action)

/-- The semantic type of a registered plugin: its execute entry
point. -/
def PluginImpl := String → ActionParams → Except String PluginOutcome

/-- Models AptosAI.registerPlugin over a list-backed registry: a new
entry is consed on, so a later registration under the same name
shadows the earlier one on lookup, matching the overwrite semantics of
the JavaScript Map. -/
def registerPlugin (plugins : List (String × PluginImpl)) (name : String) (p : PluginImpl) : List (String × PluginImpl) :=
  (name, p) :: plugins

/-- First-match lookup in the plugin registry, modelling the get call
on the JavaScript Map. -/
def lookupPlugin (plugins : List (String × PluginImpl)) (name : String) : Option PluginImpl :=
  match plugins with
  | [] => none
  | e :: rest => if e.1 = name then some e.2 else lookupPlugin rest name

/-- Models AptosAI.executePluginAction: look the plugin up by name,
fail with a not-found error when absent, and otherwise forward the
action and parameters to the plugin's execute entry point. -/
def executePluginAction (plugins : List (String × PluginImpl)) (pluginName action : String) (params : ActionParams) : Except String PluginOutcome :=
  match lookupPlugin plugins pluginName with
  | none => .error ("Plugin " ++ pluginName ++ " not found")
  | some p => p action params

/-- A signing account; only its address is observable to this code. -/
structure Account where
  address : String
deriving DecidableEq, Repr

/-- The constructor-determined state of an AptosAI instance relevant
to transaction submission: the optional signing account. -/
structure AptosAIState where
  account : Option Account
deriving Repr

/-- Models the AptosAI constructor: the signing account exists exactly
when a private key string was supplied; key-to-account derivation is
the chain SDK's and is abstracted as keyFn. -/
def mkAptosAI (keyFn : String → Account) (privateKey : Option String) : AptosAIState :=
  match privateKey with
  | some pk => { account := some (keyFn pk) }
  | none => { account := none }

/-- A transaction payload as assembled by the trading bot. -/
structure TxPayload where
  function : String
  typeArguments : List String
  arguments : List String
deriving DecidableEq, Repr

/-- A generated but unsigned transaction request. -/
structure TxnRequest where
  sender : String
  payload : TxPayload
deriving DecidableEq, Repr

/-- A signed transaction. -/
structure SignedTxn where
  request : TxnRequest
  signer : String
deriving DecidableEq, Repr

/-- The chain client operations used by submitTransaction, modelled as
total functions standing for the awaited results of successful RPC
calls. -/
structure ChainTxEnv where
  generateTransaction : String → TxPayload → TxnRequest
  signTransaction : Account → TxnRequest → SignedTxn
  submitSignedTransaction : SignedTxn → String

/-- The observable steps submitTransaction performs against the chain
client. -/
inductive TxStep where
  | generate (sender : String) (payload : TxPayload)
  | sign
  | submit
deriving DecidableEq, Repr

/-- Models AptosAI.submitTransaction: fail with the uninitialized
account error when no signing account exists (issuing no chain calls),
and otherwise generate, sign and submit in sequence, returning the
submission result; the trace records the chain calls made. -/
def submitTransaction (env : ChainTxEnv) (st : AptosAIState) (payload : TxPayload) : Except String String × List TxStep :=
  match st.account with
  | none => (.error "Account not initialized. Please provide private key.", [])
  | some acc =>
    let txnRequest := env.generateTransaction acc.address payload
    let signedTxn := env.signTransaction acc txnRequest
    (.ok (env.submitSignedTransaction signedTxn), [.generate acc.address payload, .sign, .submit])

/-- A trade intent parsed out of the model response, as consumed by
validateTrade and executeTrade. -/
structure TradeIntent where
  protocol : String
  fromToken : String
  toToken : String
  amount : String
  minOutput : String
deriving DecidableEq, Repr

/-- A trading decision parsed out of the model response. -/
structure TradingDecision where
  shouldTrade : Bool
  trade : TradeIntent
  reasoning : String
deriving DecidableEq, Repr

/-- The trade event emitted after a successful cycle. -/
structure TradeEvent where
  txHash : String
  trade : TradeIntent
  reasoning : String
deriving DecidableEq, Repr

/-- The outbound calls a trading cycle can issue: the three market
data fetches, the completion-API query, the balance fetch and swap
quote of validateTrade, and the transaction submission. -/
inductive BotCall where
  | fetchPrices
  | fetchVolumes
  | fetchLiquidity
  | modelQuery
  | fetchBalance (coinType : String)
  | fetchQuote (fromToken toToken amount : String)
  | submitTx (payload : TxPayload)
deriving DecidableEq, Repr

/-- The environment of one trading cycle: the clock, the market data
responses, the decision parsed from the completion response, the
balance lookup backing getAccountBalance, the price impact of the
quote fetched during validation, and the submission result, each
standing for the awaited value of a successful external call. -/
structure BotEnv where
  now : Int
  prices : String
  volumes : String
  liquidity : String
  modelDecision : TradingDecision
  balance : String → String
  quotePriceImpact : TradeIntent → String
  submitResult : String

/-- The bot state read and written by a cycle: the timestamp of the
last trade and the configured minimum interval in milliseconds. -/
structure BotState where
  lastTrade : Option Int
  minTradeInterval : Int
deriving DecidableEq, Repr

/-- The debounce gate at the top of monitorAndTrade: true when a last
trade exists and less than the minimum interval has elapsed. -/
def debounceSkip (env : BotEnv) (st : BotState) : Bool :=
  match st.lastTrade with
  | some t => env.now - t < st.minTradeInterval
  | none => false

/-- The price impact ceiling test of validateTrade: parseFloat of the
quoted impact strictly exceeds the fixed one percent ceiling; a NaN
parse compares false, as in JavaScript. -/
def priceImpactTooHigh (impact : String) : Bool :=
  match parseFloatPrefixOpt impact with
  | some x => decide (x > 1)
  | none => false

/-- Models TradingBot.validateTrade: fetch the fromToken balance and
fail with the insufficient-balance error when it is BigInt-below the
requested amount; otherwise fetch a swap quote and fail with the
price-impact error when its parsed price impact exceeds one percent.
The trace records the calls issued before the outcome. -/
def validateTrade (env : BotEnv) (trade : TradeIntent) : Except String Unit × List BotCall :=
  let balance := env.balance trade.fromToken
  if bigIntOfString balance < bigIntOfString trade.amount then
    (.error "Insufficient balance for trade", [.fetchBalance trade.fromToken])
  else
    let impact := env.quotePriceImpact trade
    if priceImpactTooHigh impact then
      (.error "Price impact too high",
       [.fetchBalance trade.fromToken, .fetchQuote trade.fromToken trade.toToken trade.amount])
    else
      (.ok (),
       [.fetchBalance trade.fromToken, .fetchQuote trade.fromToken trade.toToken trade.amount])

/-- Models TradingBot.analyzeMarket: query the completion API, take
the parsed decision, validate it when it says to trade, and wrap any
failure with the market-analysis prefix. -/
def analyzeMarket (env : BotEnv) : Except String TradingDecision × List BotCall :=
  let decision := env.modelDecision
  if decision.shouldTrade then
    match validateTrade env decision.trade with
    | (.error e, calls) => (.error ("Market analysis failed: " ++ e), .modelQuery :: calls)
    | (.ok _, calls) => (.ok decision, .modelQuery :: calls)
  else
    (.ok decision, [.modelQuery])

/-- The transaction payload assembled by TradingBot.executeTrade. -/
def tradePayload (trade : TradeIntent) : TxPayload :=
  { function := trade.protocol ++ "::router::swap"
    typeArguments := [trade.fromToken, trade.toToken]
    arguments := [trade.amount, trade.minOutput] }

/-- Models one cycle of TradingBot.monitorAndTrade: return immediately
when the debounce gate holds; otherwise fetch the three market data
sources, analyze the market, and when the validated decision says to
trade, submit the assembled transaction, record the new last-trade
timestamp and report the trade event. Failures are wrapped with the
trading-cycle prefix. The trace lists every outbound call of the
cycle. -/
def monitorAndTrade (env : BotEnv) (st : BotState) : Except String (Option TradeEvent) × List BotCall × BotState :=
  if debounceSkip env st then
    (.ok none, [], st)
  else
    let marketCalls : List BotCall := [.fetchPrices, .fetchVolumes, .fetchLiquidity]
    match analyzeMarket env with
    | (.error e, calls) => (.error ("Trading cycle failed: " ++ e), marketCalls ++ calls, st)
    | (.ok decision, calls) =>
      if decision.shouldTrade then
        (.ok (some { txHash := env.submitResult, trade := decision.trade, reasoning := decision.reasoning }),
         marketCalls ++ calls ++ [.submitTx (tradePayload decision.trade)],
         { st with lastTrade := some env.now })
      else
        (.ok none, marketCalls ++ calls, st)

/-- A plugin-action request as dispatched by suggestOptimalSwap. -/
structure SwapRequest where
  pluginName : String
  action : String
  dex : String
  fromToken : String
  toToken : String
  amount : String
deriving DecidableEq, Repr

/-- The fixed list of DEX names suggestOptimalSwap queries. -/
def dexList : List String := ["pancake", "liquidswap"]

/-- The calculateSwap request suggestOptimalSwap builds for one DEX
name. -/
def swapRequestFor (fromToken toToken amount dex : String) : SwapRequest :=
  { pluginName := "liquidityPool", action := "calculateSwap",
    dex := dex, fromToken := fromToken, toToken := toToken, amount := amount }

/-- The value suggestOptimalSwap returns: the generated advice
together with every obtained quote. -/
structure SwapSuggestion where
  recommendation : String
  quotes : List SwapQuote
deriving DecidableEq, Repr

/-- Join of the fanned-out quote requests, modelling the all-settled
collection of concurrently dispatched plugin calls: the first error in
list order fails the join. -/
def collectQuotes (execQuote : SwapRequest → Except String SwapQuote) : List SwapRequest → Except String (List SwapQuote)
  | [] => .ok []
  | r :: rs =>
    match execQuote r with
    | .error e => .error e
    | .ok q =>
      match collectQuotes execQuote rs with
      | .error e => .error e
      | .ok qs => .ok (q :: qs)

/-- Models DeFiAdvisorAgent.suggestOptimalSwap: dispatch one
calculateSwap plugin action per DEX name concurrently (the trace lists
the dispatched requests), reduce the quotes to the best one, generate
the recommendation from all quotes plus the best, and return it with
the quotes; failures are wrapped with the swap-analysis prefix. The
plugin dispatch and the advice-generation completion call are
abstracted as the environment functions execQuote and adviseSwap. -/
def suggestOptimalSwap
    (execQuote : SwapRequest → Except String SwapQuote)
    (adviseSwap : List SwapQuote → SwapQuote → String → String → String → String)
    (fromToken toToken amount : String) :
    Except String SwapSuggestion × List SwapRequest :=
  let reqs := dexList.map (swapRequestFor fromToken toToken amount)
  match collectQuotes execQuote reqs with
  | .error e => (.error ("Swap analysis failed: " ++ e), reqs)
  | .ok quotes =>
    match selectBestQuote quotes with
    | none => (.error "Swap analysis failed: Reduce of empty array with no initial value", reqs)
    | some bestQuote =>
      (.ok { recommendation := adviseSwap quotes bestQuote fromToken toToken amount, quotes := quotes }, reqs)

/-- The risk levels returned by getRiskAssessment. -/
inductive RiskLevel where
  | LOW
  | MEDIUM
  | HIGH
deriving DecidableEq, Repr

/-- The low-risk keyword list of determineRiskLevel. -/
def lowRiskTerms : List String := ["safe", "secure", "reliable", "established"]

/-- The high-risk keyword list of determineRiskLevel. -/
def highRiskTerms : List String := ["dangerous", "risky", "unstable", "vulnerable"]

/-- Models DeFiAdvisorAgent.determineRiskLevel: lowercase the analysis
text, return HIGH when any high-risk term occurs in it, otherwise LOW
when any low-risk term occurs, otherwise MEDIUM. -/
def determineRiskLevel (analysis : String) : RiskLevel :=
  let analysisLower := lowerStr analysis
  if highRiskTerms.any (fun t => strIncludes analysisLower t) then .HIGH
  else if lowRiskTerms.any (fun t => strIncludes analysisLower t) then .LOW
  else .MEDIUM

/-- The witness chain for the balance claim: one resource of an
unrelated type. -/
def chainW1 : String → List Resource := fun _ =>
  [{ type := "0x1::other::Res", data := none }]

/-- Generalized accumulator form of totalValue (helper lemma). -/
theorem totalValue_foldl_eq (l : List Resource) :
    ∀ a : Int,
      l.foldl
        (fun acc p =>
          match positionValue p with
          | some v => acc + bigIntOfString v
          | none => acc)
        a
      = a + ((l.filterMap positionValue).map bigIntOfString).sum := by
  induction l with
  | nil => intro a; simp
  | cons p l ih =>
    intro a
    cases hpv : positionValue p with
    | none => simp [hpv, List.filterMap_cons, ih]
    | some v =>
      simp only [List.foldl_cons, hpv, List.filterMap_cons, ih, List.map_cons, List.sum_cons]
      ring

/-- C1: getAccountBalance searches the fetched resource list for a
resource whose type exactly equals the requested coin type, and when
no such resource is present it returns the string 0 rather than
failing; it is a total function of the fetched list, so an absence is
indistinguishable from a zero balance. -/
theorem getAccountBalance_absent_is_zero (chain : String → List Resource) (address coinType : String)
    (h : ∀ r ∈ chain address, r.type ≠ coinType) :
    getAccountBalance chain address coinType = "0" := by
  have hf : (getAccountResources chain address).find? (fun r => r.type == coinType) = none := by
    rw [List.find?_eq_none]
    intro r hr
    simpa using h r hr
  simp [getAccountBalance, hf]

/-- Witness for the balance claim: a concrete chain holding no
aptos-coin resource yields the string 0. -/
theorem getAccountBalance_absent_is_zero_witness :
    getAccountBalance chainW1 "0xabc" "0x1::aptos_coin::AptosCoin" = "0" :=
  getAccountBalance_absent_is_zero chainW1 "0xabc" "0x1::aptos_coin::AptosCoin" (by decide)

/-- C3: the DeFi-position filter of analyzePortfolio returns exactly
the order-preserving sublist of the resources whose type string
contains one of the markers LiquidityPool, Stake or Farm, excluding
every resource containing none of them; on the two-resource example of
the spec only the liquidity-pool entry is returned. -/
theorem filterDefiPositions_spec (resources : List Resource) :
    List.Sublist (filterDefiPositions resources) resources
    ∧ (∀ r, r ∈ filterDefiPositions resources ↔ r ∈ resources ∧ isDefiPosition r = true)
    ∧ filterDefiPositions
        [{ type := "0x1::LiquidityPool::LP", data := some { coin := none, value := some "100" } },
         { type := "0x1::Coin", data := some { coin := none, value := none } }]
      = [{ type := "0x1::LiquidityPool::LP", data := some { coin := none, value := some "100" } }] := by
  refine ⟨List.filter_sublist _, ?_, by decide⟩
  intro r
  simp [filterDefiPositions, List.mem_filter]

/-- C9: the total-value sum of analyzePortfolio adds exactly the
BigInt values of those filtered positions carrying a data object with
a value field, skipping every position lacking the field instead of
failing, and the sum is the exact integer sum of the present
values. -/
theorem totalValue_sums_present_values :
    (∀ positions : List Resource,
      totalValue positions = ((positions.filterMap positionValue).map bigIntOfString).sum)
    ∧ (∀ (l1 l2 : List Resource) (p : Resource), positionValue p = none →
        totalValue (l1 ++ p :: l2) = totalValue (l1 ++ l2)) := by
  have key : ∀ positions : List Resource,
      totalValue positions = ((positions.filterMap positionValue).map bigIntOfString).sum := by
    intro positions
    simpa using totalValue_foldl_eq positions 0
  refine ⟨key, ?_⟩
  intro l1 l2 p hp
  rw [key, key]
  simp [List.filterMap_append, List.filterMap_cons, hp]

/-- C10: determineRiskLevel is a total, case-insensitive keyword
classifier: HIGH exactly when the lowercased text contains a high-risk
term, LOW exactly when it contains no high-risk term but some low-risk
term, MEDIUM exactly otherwise; so high-risk terms take precedence and
keyword-free text defaults to MEDIUM. -/
theorem determineRiskLevel_spec (s : String) :
    (determineRiskLevel s = .HIGH ↔ highRiskTerms.any (fun t => strIncludes (lowerStr s) t) = true)
    ∧ (determineRiskLevel s = .LOW ↔
        (highRiskTerms.any (fun t => strIncludes (lowerStr s) t) = false
         ∧ lowRiskTerms.any (fun t => strIncludes (lowerStr s) t) = true))
    ∧ (determineRiskLevel s = .MEDIUM ↔
        (highRiskTerms.any (fun t => strIncludes (lowerStr s) t) = false
         ∧ lowRiskTerms.any (fun t => strIncludes (lowerStr s) t) = false)) := by
  by_cases hh : highRiskTerms.any (fun t => strIncludes (lowerStr s) t) = true
  · simp [determineRiskLevel, hh]
  · by_cases hl : lowRiskTerms.any (fun t => strIncludes (lowerStr s) t) = true
    · simp [determineRiskLevel, hh, hl]
    · simp [determineRiskLevel, hh, hl]

/-- An empty chain environment for concrete plugin examples. -/
def chainW0 : String → List Resource := fun _ => []

/-- An empty parameter object for concrete plugin examples. -/
def paramsW : ActionParams :=
  { poolAddress := "", amount := "", dex := "", fromToken := "", toToken := "" }

/-- A registry holding only the liquidity-pool plugin, as built by the
agents' initializePlugins. -/
def regW : List (String × PluginImpl) :=
  registerPlugin [] "liquidityPool" (liquidityPoolExecute chainW0)

/-- C4: executePluginAction fails with the plugin-not-found error
whenever the name is unregistered, regardless of action and params;
when the name resolves to the liquidity-pool plugin and the action is
neither of its two recognized actions, the call fails with the
unknown-action error instead; in particular dispatching unknownAction
to a registry containing liquidityPool yields unknown-action, and
dispatching to an empty registry yields not-found. -/
theorem executePluginAction_error_spec :
    (∀ (plugins : List (String × PluginImpl)) (name action : String) (params : ActionParams),
      lookupPlugin plugins name = none →
      executePluginAction plugins name action params = .error ("Plugin " ++ name ++ " not found"))
    ∧ (∀ (plugins : List (String × PluginImpl)) (chain : String → List Resource)
        (name action : String) (params : ActionParams),
      lookupPlugin plugins name = some (liquidityPoolExecute chain) →
      action ≠ "getPoolInfo" → action ≠ "calculateSwap" →
      executePluginAction plugins name action params = .error ("Unknown action: " ++ action))
    ∧ executePluginAction regW "liquidityPool" "unknownAction" paramsW
        = .error "Unknown action: unknownAction"
    ∧ executePluginAction [] "liquidityPool" "calculateSwap" paramsW
        = .error "Plugin liquidityPool not found" := by
  refine ⟨?_, ?_, rfl, rfl⟩
  · intro plugins name action params h
    simp [executePluginAction, h]
  · intro plugins chain name action params h h1 h2
    simp [executePluginAction, h, liquidityPoolExecute, h1, h2]

/-- C7: submitTransaction fails with the account-not-initialized error
exactly when the constructor was given no private key (issuing no
chain calls), and with a signing account it generates, signs and
submits in one uninterrupted sequence, returning the submission
result; the constructor creates the account exactly when a key is
supplied. -/
theorem submitTransaction_spec (env : ChainTxEnv) (st : AptosAIState) (payload : TxPayload) :
    (st.account = none →
      submitTransaction env st payload
        = (.error "Account not initialized. Please provide private key.", []))
    ∧ (∀ acc, st.account = some acc →
        submitTransaction env st payload
          = (.ok (env.submitSignedTransaction
                    (env.signTransaction acc (env.generateTransaction acc.address payload))),
             [.generate acc.address payload, .sign, .submit]))
    ∧ (∀ (keyFn : String → Account) (pk : String),
        (mkAptosAI keyFn (some pk)).account = some (keyFn pk))
    ∧ (∀ keyFn : String → Account, (mkAptosAI keyFn none).account = none) := by
  refine ⟨?_, ?_, fun keyFn pk => rfl, fun keyFn => rfl⟩
  · intro h
    simp [submitTransaction, h]
  · intro acc h
    simp [submitTransaction, h]

/-- C6: a trading cycle entered while the debounce gate holds (a last
trade exists and less than the minimum interval has elapsed) returns
immediately, issues no outbound calls and leaves the state
unchanged. -/
theorem monitorAndTrade_debounce_skip (env : BotEnv) (st : BotState)
    (h : debounceSkip env st = true) :
    monitorAndTrade env st = (.ok none, [], st) := by
  simp [monitorAndTrade, h]

/-- The trade intent used by the concrete trading-cycle examples. -/
def tradeW : TradeIntent :=
  { protocol := "pancake", fromToken := "0x1::aptos_coin::AptosCoin",
    toToken := "0x1::usdc::USDC", amount := "100", minOutput := "0" }

/-- A parsed decision that wants to trade (concrete example). -/
def decisionW : TradingDecision :=
  { shouldTrade := true, trade := tradeW, reasoning := "momentum signal" }

/-- Cycle environment whose last trade lies five seconds in the past
(concrete example for the debounce claim). -/
def envW6 : BotEnv :=
  { now := 1000000, prices := "p", volumes := "v", liquidity := "l",
    modelDecision := decisionW, balance := fun _ => "500",
    quotePriceImpact := fun _ => "0.1%", submitResult := "0xhash" }

/-- Bot state five seconds after the last trade with a five-minute
minimum interval. -/
def stW6 : BotState := { lastTrade := some 995000, minTradeInterval := 300000 }

/-- Witness for the debounce claim: with the last trade five seconds
old and a 300000 ms minimum interval, the cycle returns immediately
with an empty trace. -/
theorem monitorAndTrade_debounce_skip_witness :
    monitorAndTrade envW6 stW6 = (.ok none, [], stW6) :=
  monitorAndTrade_debounce_skip envW6 stW6 (by decide)

/-- C5: whenever a cycle reaches trade validation (debounce gate open,
decision says to trade) with the fromToken balance BigInt-below the
requested amount, the cycle fails with the wrapped insufficient-balance
error, the trace ends at the balance fetch, and no transaction
submission call occurs in it. -/
theorem monitorAndTrade_insufficient_balance (env : BotEnv) (st : BotState)
    (hdeb : debounceSkip env st = false)
    (hst : env.modelDecision.shouldTrade = true)
    (hbal : bigIntOfString (env.balance env.modelDecision.trade.fromToken)
              < bigIntOfString env.modelDecision.trade.amount) :
    monitorAndTrade env st =
      (.error "Trading cycle failed: Market analysis failed: Insufficient balance for trade",
       [.fetchPrices, .fetchVolumes, .fetchLiquidity, .modelQuery,
        .fetchBalance env.modelDecision.trade.fromToken],
       st)
    ∧ ∀ p : TxPayload,
        BotCall.submitTx p ∉
          ([.fetchPrices, .fetchVolumes, .fetchLiquidity, .modelQuery,
            .fetchBalance env.modelDecision.trade.fromToken] : List BotCall) := by
  have hval : validateTrade env env.modelDecision.trade =
      (.error "Insufficient balance for trade",
       [.fetchBalance env.modelDecision.trade.fromToken]) := by
    simp [validateTrade, hbal]
  have hana : analyzeMarket env =
      (.error "Market analysis failed: Insufficient balance for trade",
       [.modelQuery, .fetchBalance env.modelDecision.trade.fromToken]) := by
    simp [analyzeMarket, hst, hval]
  refine ⟨?_, ?_⟩
  · simp [monitorAndTrade, hdeb, hana]
  · intro p
    simp

/-- Cycle environment holding a balance of 50 against a requested
amount of 100 (concrete example for the validation claim). -/
def envW5 : BotEnv :=
  { now := 1000000, prices := "p", volumes := "v", liquidity := "l",
    modelDecision := decisionW, balance := fun _ => "50",
    quotePriceImpact := fun _ => "0.1%", submitResult := "0xhash" }

/-- Bot state with no previous trade. -/
def stW5 : BotState := { lastTrade := none, minTradeInterval := 300000 }

/-- Witness for the validation claim: with balance 50 and requested
amount 100 the cycle fails with the insufficient-balance error before
any submission call. -/
theorem monitorAndTrade_insufficient_balance_witness :
    monitorAndTrade envW5 stW5 =
      (.error "Trading cycle failed: Market analysis failed: Insufficient balance for trade",
       [.fetchPrices, .fetchVolumes, .fetchLiquidity, .modelQuery,
        .fetchBalance "0x1::aptos_coin::AptosCoin"],
       stW5)
    ∧ ∀ p : TxPayload,
        BotCall.submitTx p ∉
          ([.fetchPrices, .fetchVolumes, .fetchLiquidity, .modelQuery,
            .fetchBalance "0x1::aptos_coin::AptosCoin"] : List BotCall) :=
  monitorAndTrade_insufficient_balance envW5 stW5 (by decide) (by decide) (by decide)

/-- C8: suggestOptimalSwap dispatches exactly one calculateSwap plugin
action per name of the fixed DEX list (the trace is the two requests,
in fan-out order), and when both dispatches yield quotes it returns
the pair of the advice generated from all quotes plus the reduced best
quote, together with every obtained quote. -/
theorem suggestOptimalSwap_spec
    (execQuote : SwapRequest → Except String SwapQuote)
    (adviseSwap : List SwapQuote → SwapQuote → String → String → String → String)
    (fromToken toToken amount : String) (q1 q2 : SwapQuote)
    (h1 : execQuote (swapRequestFor fromToken toToken amount "pancake") = .ok q1)
    (h2 : execQuote (swapRequestFor fromToken toToken amount "liquidswap") = .ok q2) :
    suggestOptimalSwap execQuote adviseSwap fromToken toToken amount =
      (.ok { recommendation := adviseSwap [q1, q2] (betterQuote q1 q2) fromToken toToken amount,
             quotes := [q1, q2] },
       [swapRequestFor fromToken toToken amount "pancake",
        swapRequestFor fromToken toToken amount "liquidswap"]) := by
  simp [suggestOptimalSwap, dexList, collectQuotes, h1, h2, selectBestQuote]

/-- A concrete quote source for the swap-suggestion witness. -/
def execQuoteW : SwapRequest → Except String SwapQuote := fun r =>
  if r.dex = "pancake" then .ok { outputAmount := "900", priceImpact := "0.1%" }
  else .ok { outputAmount := "950", priceImpact := "0.2%" }

/-- A concrete advice generator for the swap-suggestion witness. -/
def adviseW : List SwapQuote → SwapQuote → String → String → String → String :=
  fun _ _ _ _ _ => "take the better quote"

/-- Witness for the swap-suggestion claim at concrete inputs. -/
theorem suggestOptimalSwap_spec_witness :
    suggestOptimalSwap execQuoteW adviseW "APT" "USDC" "1000" =
      (.ok { recommendation := "take the better quote",
             quotes := [{ outputAmount := "900", priceImpact := "0.1%" },
                        { outputAmount := "950", priceImpact := "0.2%" }] },
       [swapRequestFor "APT" "USDC" "1000" "pancake",
        swapRequestFor "APT" "USDC" "1000" "liquidswap"]) :=
  suggestOptimalSwap_spec execQuoteW adviseW "APT" "USDC" "1000"
    { outputAmount := "900", priceImpact := "0.1%" }
    { outputAmount := "950", priceImpact := "0.2%" }
    rfl rfl

/-- Decomposition of the left fold of betterQuote (helper lemma): the
fold result is an element of the list, every quote before it is
strictly smaller, and every quote after it is no greater — i.e. the
fold picks the first occurrence of the maximum. -/
theorem foldl_betterQuote_decomp (rest : List SwapQuote) :
    ∀ q0 : SwapQuote, ∃ l1 b l2,
      q0 :: rest = l1 ++ b :: l2
      ∧ rest.foldl betterQuote q0 = b
      ∧ (∀ x ∈ l1, quoteVal x < quoteVal b)
      ∧ (∀ x ∈ l2, quoteVal x ≤ quoteVal b) := by
  induction rest with
  | nil =>
    intro q0
    exact ⟨[], q0, [], rfl, rfl, by simp, by simp⟩
  | cons c rest ih =>
    intro q0
    by_cases hvc : quoteVal q0 < quoteVal c
    · have hbq : betterQuote q0 c = c := if_pos hvc
      obtain ⟨l1, b, l2, hdec, hfold, hl1, hl2⟩ := ih (betterQuote q0 c)
      rw [hbq] at hdec hfold
      cases l1 with
      | nil =>
        simp only [List.nil_append] at hdec
        injection hdec with hb hl
        subst hb
        subst hl
        refine ⟨[q0], c, rest, rfl, ?_, ?_, hl2⟩
        · rw [List.foldl_cons, hbq]
          exact hfold
        · intro x hx
          simp only [List.mem_singleton] at hx
          subst hx
          exact hvc
      | cons h t =>
        simp only [List.cons_append] at hdec
        injection hdec with hh hrest
        subst hh
        have hcb : quoteVal c < quoteVal b := hl1 c (by simp)
        refine ⟨q0 :: c :: t, b, l2, ?_, ?_, ?_, hl2⟩
        · simp [hrest]
        · rw [List.foldl_cons, hbq]
          exact hfold
        · intro x hx
          rcases List.mem_cons.mp hx with hx0 | hx'
          · subst hx0
            exact lt_trans hvc hcb
          · rcases List.mem_cons.mp hx' with hx1 | hxt
            · subst hx1
              exact hcb
            · exact hl1 x (List.mem_cons_of_mem c hxt)
    · have hbq : betterQuote q0 c = q0 := if_neg hvc
      have hle : quoteVal c ≤ quoteVal q0 := not_lt.mp hvc
      obtain ⟨l1, b, l2, hdec, hfold, hl1, hl2⟩ := ih (betterQuote q0 c)
      rw [hbq] at hdec hfold
      cases l1 with
      | nil =>
        simp only [List.nil_append] at hdec
        injection hdec with hb hl
        subst hb
        subst hl
        refine ⟨[], q0, c :: rest, rfl, ?_, by simp, ?_⟩
        · rw [List.foldl_cons, hbq]
          exact hfold
        · intro x hx
          rcases List.mem_cons.mp hx with hx0 | hxr
          · subst hx0
            exact hle
          · exact hl2 x hxr
      | cons h t =>
        simp only [List.cons_append] at hdec
        injection hdec with hh hrest
        subst hh
        have hqb : quoteVal q0 < quoteVal b := hl1 q0 (by simp)
        refine ⟨q0 :: c :: t, b, l2, ?_, ?_, ?_, hl2⟩
        · simp [hrest]
        · rw [List.foldl_cons, hbq]
          exact hfold
        · intro x hx
          rcases List.mem_cons.mp hx with hx0 | hx'
          · subst hx0
            exact hqb
          · rcases List.mem_cons.mp hx' with hx1 | hxt
            · subst hx1
              exact lt_of_le_of_lt hle hqb
            · exact hl1 x (List.mem_cons_of_mem q0 hxt)

/-- C2: on every non-empty quote list, the reduce of
suggestOptimalSwap returns the first quote in input order whose
BigInt-parsed output amount attains the maximum (every earlier quote
parses strictly smaller, every later quote parses no greater); on the
output amounts 900, 950, 950 it returns the quote at index 1. -/
theorem selectBestQuote_spec :
    (∀ (q0 : SwapQuote) (rest : List SwapQuote), ∃ l1 b l2,
      q0 :: rest = l1 ++ b :: l2
      ∧ selectBestQuote (q0 :: rest) = some b
      ∧ (∀ x ∈ l1, quoteVal x < quoteVal b)
      ∧ (∀ x ∈ l2, quoteVal x ≤ quoteVal b))
    ∧ selectBestQuote
        [{ outputAmount := "900", priceImpact := "0.1%" },
         { outputAmount := "950", priceImpact := "0.2%" },
         { outputAmount := "950", priceImpact := "0.3%" }]
      = some { outputAmount := "950", priceImpact := "0.2%" } := by
  constructor
  · intro q0 rest
    obtain ⟨l1, b, l2, hdec, hfold, hl1, hl2⟩ := foldl_betterQuote_decomp rest q0
    exact ⟨l1, b, l2, hdec, congrArg some hfold, hl1, hl2⟩
  · decide
